import Mathlib

/-!
# Verification of the Instruqt quiz server (`server/quiz_server.py`)

A shallow embedding of the quiz server: the YAML-backed question data
model, the question-set loader, the quiz-page route, the answer
validation handler, the completion handler and the reset handler,
together with a model of the fragment of Python's `re` module that the
validation handler uses (`re.search` with the `IGNORECASE`, `MULTILINE`
and `DOTALL` flags), via Brzozowski derivatives.

File-system entries (course YAML files, completion-marker files) are
modelled explicitly so that the handlers are pure functions from a
server state to a new state and a response.
-/

namespace QuizServer

/-! ## Data model (the parsed YAML course document)

A course YAML file parses to a mapping from lab id to lab data; a lab
has a `title` and an ordered list of questions; a question carries the
fields the server reads (`id`, `title`, `text`, `placeholder`,
`multiline`, `rows`, `answers`, `correct_message`, `hint`); an answer
pattern is a regex `pattern` string with an optional `flags` string
(absent flags are read with `.get('flags', '')`). -/

structure AnswerPattern where
  pattern : String
  flags : Option String
deriving DecidableEq, Repr

structure Question where
  id : Int
  title : String
  text : String
  placeholder : String
  multiline : Bool
  rows : Option Int
  answers : List AnswerPattern
  correct_message : String
  hint : String
deriving DecidableEq, Repr

structure Lab where
  title : String
  questions : List Question
deriving DecidableEq, Repr

/-- A parsed course document: the YAML top-level mapping, lab id → lab. -/
def CourseDoc := List (String × Lab)
deriving DecidableEq

/-- A course file present on disk either parses to a document or is
malformed/unreadable (any exception during open/parse). -/
inductive FileData where
  | malformed
  | parsed (doc : CourseDoc)
deriving DecidableEq

/-- The questions directory: file stem (course name) → file content.
A course absent from the list has no backing file. -/
def QuestionsDir := List (String × FileData)
deriving DecidableEq

/-- Server state: the questions directory plus the completion-marker
files present in `/root` (stored by base name; every marker path is
`/root/` followed by its base name). -/
structure ServerState where
  questionsDir : QuestionsDir
  markers : List (List Char)
deriving DecidableEq

/-- I/O environment for marker-file operations: for a marker base name,
`none` means the write/delete succeeds, `some e` means it raises an
exception whose text is `e`. -/
def IOEnv := List Char → Option String

/-! ## Question-set loader and course directory -/

/-- Look up the backing file for a course (first association wins). -/
def getFile (dir : QuestionsDir) (course : String) : Option FileData :=
  (dir.find? (fun p => p.1 == course)).map Prod.snd

/-- The loader `load_questions`: re-reads the backing file on every call and
returns the parsed document, or `none` when the file is absent or any
exception occurs while reading/parsing it. -/
def load_questions (dir : QuestionsDir) (course : String) : Option CourseDoc :=
  match getFile dir course with
  | none => none
  | some .malformed => none
  | some (.parsed doc) => some doc

/-- The directory scan `get_available_courses`: the stems of the `*.yaml` files in the
questions directory, sorted. -/
def get_available_courses (dir : QuestionsDir) : List String :=
  (dir.map Prod.fst).mergeSort (fun a b => a ≤ b)

/-- Look up a lab inside a parsed course document (`questions[lab_id]`,
guarded by `lab_id not in questions`). -/
def lookupLab (doc : CourseDoc) (lab : String) : Option Lab :=
  (doc.find? (fun p => p.1 == lab)).map Prod.snd

/-! ## Python string helpers -/

/-- The characters `str.strip()` removes (Python whitespace). -/
def isPyWs (c : Char) : Bool :=
  c == ' ' || c == '\t' || c == '\n' || c == '\r' || c == '\x0b' || c == '\x0c'

/-- Python `str.strip()`. -/
def pyStrip (s : String) : String :=
  String.mk (((s.toList.dropWhile isPyWs).reverse.dropWhile isPyWs).reverse)

/-- Python `c in s` for a one-character needle. -/
def pyIn (c : Char) (s : String) : Bool :=
  s.toList.contains c

/-! ## The regex flags the handler recognises

The handler builds `regex_flags` by testing `'i' in flags`,
`'m' in flags`, `'s' in flags`; any other letter in the flags string
has no effect. -/

structure ReFlags where
  ignorecase : Bool
  multiline : Bool
  dotall : Bool
deriving DecidableEq, Repr

def parseFlags (flags : String) : ReFlags :=
  ⟨pyIn 'i' flags, pyIn 'm' flags, pyIn 's' flags⟩

/-! ## Regex matching (the fragment of Python `re` the server uses)

Patterns come from the course YAML.  We model the regex abstract syntax
and acceptance by Brzozowski derivatives; `^`/`$` anchors are handled at
the outermost level of the pattern (the position predicates of
`re.search`, including their `MULTILINE` behaviour). -/

inductive Regex where
  | emp
  | eps
  | chr (c : Char)
  | cls (neg : Bool) (cs : List Char)
  | cat (r1 r2 : Regex)
  | alt (r1 r2 : Regex)
  | star (r : Regex)
deriving DecidableEq, Repr

/-- Character comparison under optional `IGNORECASE`. -/
def charMatchEq (ci : Bool) (a b : Char) : Bool :=
  a == b || (ci && (a.toLower == b.toLower))

/-- Does character `c` satisfy the class `(neg, cs)`? -/
def clsMatch (ci : Bool) (neg : Bool) (cs : List Char) (c : Char) : Bool :=
  let inCls := cs.any (fun c' => charMatchEq ci c' c)
  if neg then !inCls else inCls

def nullable : Regex → Bool
  | .emp => false
  | .eps => true
  | .chr _ => false
  | .cls _ _ => false
  | .cat r1 r2 => nullable r1 && nullable r2
  | .alt r1 r2 => nullable r1 || nullable r2
  | .star _ => true

def deriv (ci : Bool) : Regex → Char → Regex
  | .emp, _ => .emp
  | .eps, _ => .emp
  | .chr c', c => if charMatchEq ci c' c then .eps else .emp
  | .cls neg cs, c => if clsMatch ci neg cs c then .eps else .emp
  | .cat r1 r2, c =>
      if nullable r1 then .alt (.cat (deriv ci r1 c) r2) (deriv ci r2 c)
      else .cat (deriv ci r1 c) r2
  | .alt r1 r2, c => .alt (deriv ci r1 c) (deriv ci r2 c)
  | .star r, c => .cat (deriv ci r c) (.star r)

/-- Acceptance: `r` matches exactly the string `l`. -/
def accepts (ci : Bool) (r : Regex) (l : List Char) : Bool :=
  nullable (l.foldl (deriv ci) r)

/-- Is there a prefix of `cs` accepted by `r` such that the remaining
suffix at the match's end position satisfies `endOk`? -/
def matchPre (ci : Bool) (endOk : List Char → Bool) : Regex → List Char → Bool
  | r, [] => nullable r && endOk []
  | r, c :: rest =>
      (nullable r && endOk (c :: rest)) || matchPre ci endOk (deriv ci r c) rest

/-- Search over start positions, as `re.search` does: `prev` is the character just
before the current position (`none` at the start of the string); a
match may start at any position whose `prev` satisfies `startOk`. -/
def searchAux (ci : Bool) (startOk : Option Char → Bool) (endOk : List Char → Bool)
    (r : Regex) : Option Char → List Char → Bool
  | prev, cs =>
      (startOk prev && matchPre ci endOk r cs) ||
      (match cs with
       | [] => false
       | c :: rest => searchAux ci startOk endOk r (some c) rest)

/-- Valid start positions for a pattern with/without a leading `^`:
unanchored patterns start anywhere; `^` requires the string start, or a
position just after a newline under `MULTILINE`. -/
def startOkFor (anchored multi : Bool) (prev : Option Char) : Bool :=
  if anchored then (prev == none || (multi && prev == some '\n')) else true

/-- Valid end positions for a pattern with/without a trailing `$`:
unanchored patterns end anywhere; `$` requires the string end, the
position just before a final newline, or, under `MULTILINE`, a position
just before any newline. -/
def endOkFor (anchored multi : Bool) (rest : List Char) : Bool :=
  if anchored then
    (rest.isEmpty || (if multi then rest.head? == some '\n' else rest == ['\n']))
  else true

/-! ## Pattern parsing

A recursive-descent parser for the regex syntax the server's course
files may use: literals, `.`, escapes (`\d \D \s \S \w \W \n \t \r` and
escaped punctuation), character classes with ranges and negation,
grouping `( )` and `(?: )`, alternation `|`, the quantifiers
`* + ? {m} {m,} {m,n}` with an optional lazy `?`, and `^`/`$` anchors
at the ends of the pattern.  Constructs outside this fragment make the
parse fail (`none`); following Python, an invalid `{...}` is read as
literal characters, and a bare `} ] {` is a literal. -/

def digitChars : List Char := ['0','1','2','3','4','5','6','7','8','9']

def wsChars : List Char := [' ', '\t', '\n', '\r', '\x0b', '\x0c']

def rangeChars (c d : Char) : List Char :=
  (List.range (d.toNat - c.toNat + 1)).map (fun i => Char.ofNat (c.toNat + i))

def wordChars : List Char :=
  rangeChars 'a' 'z' ++ rangeChars 'A' 'Z' ++ digitChars ++ ['_']

/-- An escape sequence `\c`, outside a character class. -/
def escAtom (c : Char) : Option Regex :=
  if c == 'd' then some (.cls false digitChars)
  else if c == 'D' then some (.cls true digitChars)
  else if c == 's' then some (.cls false wsChars)
  else if c == 'S' then some (.cls true wsChars)
  else if c == 'w' then some (.cls false wordChars)
  else if c == 'W' then some (.cls true wordChars)
  else if c == 'n' then some (.chr '\n')
  else if c == 't' then some (.chr '\t')
  else if c == 'r' then some (.chr '\r')
  else if c.isAlpha || c.isDigit then none
  else some (.chr c)

/-- An escape sequence `\c` inside a character class: the set of
characters it denotes. -/
def escClassSet (c : Char) : Option (List Char) :=
  if c == 'd' then some digitChars
  else if c == 's' then some wsChars
  else if c == 'w' then some wordChars
  else if c == 'n' then some ['\n']
  else if c == 't' then some ['\t']
  else if c == 'r' then some ['\r']
  else if c.isAlpha || c.isDigit then none
  else some [c]

/-- Items of a character class, until the closing `]` (which is a
literal when it is the first item, as in Python). -/
def parseClassItems (fuel : Nat) (acc : List Char) (first : Bool) :
    List Char → Option (List Char × List Char)
  | [] => none
  | ']' :: rest =>
      if first then
        match fuel with
        | 0 => none
        | fuel + 1 => parseClassItems fuel (acc ++ [']']) false rest
      else some (acc, rest)
  | '\\' :: e :: rest =>
      match fuel with
      | 0 => none
      | fuel + 1 =>
        match escClassSet e with
        | none => none
        | some set =>
            match rest with
            | '-' :: ']' :: rest2 => some (acc ++ set ++ ['-'], rest2)
            | '-' :: _ => none
            | _ => parseClassItems fuel (acc ++ set) false rest
  | c :: '-' :: ']' :: rest => some (acc ++ [c, '-'], rest)
  | _ :: '-' :: '\\' :: _ => none
  | c :: '-' :: d :: rest =>
      match fuel with
      | 0 => none
      | fuel + 1 =>
        if c.toNat ≤ d.toNat then parseClassItems fuel (acc ++ rangeChars c d) false rest
        else none
  | c :: rest =>
      match fuel with
      | 0 => none
      | fuel + 1 => parseClassItems fuel (acc ++ [c]) false rest

/-- A character class, after the opening `[`. -/
def parseClass (fuel : Nat) (cs : List Char) : Option (Regex × List Char) :=
  match cs with
  | '^' :: rest =>
      (parseClassItems fuel [] true rest).map (fun p => (.cls true p.1, p.2))
  | _ =>
      (parseClassItems fuel [] true cs).map (fun p => (.cls false p.1, p.2))

/-- Parse a nonempty run of digits as a number. -/
def parseNum (cs : List Char) : Option (Nat × List Char) :=
  let ds := cs.takeWhile (·.isDigit)
  if ds.isEmpty then none
  else some (ds.foldl (fun n c => 10 * n + (c.toNat - '0'.toNat)) 0, cs.drop ds.length)

/-- Exactly `m` copies of `r` (the quantifier with a fixed count). -/
def repExact (r : Regex) : Nat → Regex
  | 0 => .eps
  | m + 1 => .cat r (repExact r m)

/-- Between `0` and `k` copies of `r`. -/
def optPow (r : Regex) : Nat → Regex
  | 0 => .eps
  | k + 1 => .cat (.alt r .eps) (optPow r k)

/-- Consume a lazy-quantifier marker `?` if present. -/
def dropLazy : List Char → List Char
  | '?' :: rest => rest
  | cs => cs

/-- Try to read a quantifier following an atom `r`; `none` means no
quantifier is consumed (for `{`, Python falls back to a literal). -/
def tryRep (r : Regex) : List Char → Option (Regex × List Char)
  | '*' :: rest => some (.star r, dropLazy rest)
  | '+' :: rest => some (.cat r (.star r), dropLazy rest)
  | '?' :: rest => some (.alt r .eps, dropLazy rest)
  | '{' :: rest =>
      match parseNum rest with
      | some (m, '}' :: rest2) => some (repExact r m, dropLazy rest2)
      | some (m, ',' :: '}' :: rest2) => some (.cat (repExact r m) (.star r), dropLazy rest2)
      | some (m, ',' :: rest2) =>
          match parseNum rest2 with
          | some (n, '}' :: rest3) =>
              if m ≤ n then some (.cat (repExact r m) (optPow r (n - m)), dropLazy rest3)
              else none
          | _ => none
      | _ => none
  | _ => none

mutual

/-- An alternation `cat ('|' cat)*`. -/
def parseAlt (fuel : Nat) (dotall : Bool) (cs : List Char) : Option (Regex × List Char) :=
  match fuel with
  | 0 => none
  | fuel + 1 =>
    match parseCat fuel dotall cs with
    | none => none
    | some (r, rest) =>
        match rest with
        | '|' :: rest2 =>
            match parseAlt fuel dotall rest2 with
            | none => none
            | some (r2, rest3) => some (.alt r r2, rest3)
        | _ => some (r, rest)

/-- A concatenation of quantified atoms; stops at `|`, `)` or the end. -/
def parseCat (fuel : Nat) (dotall : Bool) (cs : List Char) : Option (Regex × List Char) :=
  match fuel with
  | 0 => none
  | fuel + 1 =>
    match cs with
    | [] => some (.eps, [])
    | ')' :: _ => some (.eps, cs)
    | '|' :: _ => some (.eps, cs)
    | _ =>
      match parseAtom fuel dotall cs with
      | none => none
      | some (r, rest) =>
          let (r, rest) :=
            match tryRep r rest with
            | some (r2, rest2) => (r2, rest2)
            | none => (r, rest)
          match parseCat fuel dotall rest with
          | none => none
          | some (r2, rest2) => some (.cat r r2, rest2)

/-- A single atom: group, class, escape, `.`, or a literal. -/
def parseAtom (fuel : Nat) (dotall : Bool) (cs : List Char) : Option (Regex × List Char) :=
  match fuel with
  | 0 => none
  | fuel + 1 =>
    match cs with
    | [] => none
    | '(' :: '?' :: ':' :: rest =>
        match parseAlt fuel dotall rest with
        | some (r, ')' :: rest2) => some (r, rest2)
        | _ => none
    | '(' :: '?' :: _ => none
    | '(' :: rest =>
        match parseAlt fuel dotall rest with
        | some (r, ')' :: rest2) => some (r, rest2)
        | _ => none
    | '[' :: rest => parseClass fuel rest
    | '\\' :: e :: rest => (escAtom e).map (fun r => (r, rest))
    | '\\' :: [] => none
    | '.' :: rest => some (.cls true (if dotall then [] else ['\n']), rest)
    | '*' :: _ => none
    | '+' :: _ => none
    | '?' :: _ => none
    | '^' :: _ => none
    | '$' :: _ => none
    | ')' :: _ => none
    | '|' :: _ => none
    | c :: rest => some (.chr c, rest)

end

/-- Parse a full pattern string: strip an initial `^` and a trailing
unescaped `$` (the anchors), parse the rest.  Returns
`(startAnchored, regex, endAnchored)`, or `none` outside the supported
fragment. -/
def parsePattern (p : String) (dotall : Bool) : Option (Bool × Regex × Bool) :=
  let cs := p.toList
  let (aS, cs) :=
    match cs with
    | '^' :: rest => (true, rest)
    | _ => (false, cs)
  let rcs := cs.reverse
  let (aE, cs) :=
    match rcs with
    | '$' :: rest =>
        if (rest.takeWhile (· == '\\')).length % 2 == 0 then (true, rest.reverse)
        else (false, cs)
    | _ => (false, cs)
  match parseAlt (4 * cs.length + 8) dotall cs with
  | some (r, []) => some (aS, r, aE)
  | _ => none

/-- The model of Python's `re.search(pattern, answer, regex_flags)`,
returned as the truthiness the handler tests.  Patterns outside the
modelled fragment are treated as not matching. -/
def reSearch (pattern flags answer : String) : Bool :=
  let f := parseFlags flags
  match parsePattern pattern f.dotall with
  | none => false
  | some (aS, r, aE) =>
      searchAux f.ignorecase (startOkFor aS f.multiline) (endOkFor aE f.multiline)
        r none answer.toList

/-! ## Marker-file names -/

/-- Base name of the completion marker for a `(course, lab)` pair; the
file lives at `/root/` + this name
(`f'/root/quiz_complete_{course_name}_{lab_id}.txt'`). -/
def markerBase (course lab : String) : List Char :=
  "quiz_complete_".toList ++ course.toList ++ ['_'] ++ lab.toList ++ ".txt".toList

/-- Full marker path. -/
def markerPath (course lab : String) : List Char :=
  "/root/".toList ++ markerBase course lab

/-- Does a base name match the glob `quiz_complete_*.txt` used by
"reset all"? -/
def globMatch (n : List Char) : Bool :=
  "quiz_complete_".toList.isPrefixOf n &&
    ".txt".toList.isSuffixOf (n.drop "quiz_complete_".toList.length)

/-! ## The `/validate` handler -/

structure ValidateReq where
  course_name : String
  lab_id : String
  question_id : Int
  answer : String
deriving DecidableEq, Repr

structure ValidateResp where
  correct : Bool
  message : String
  status : Nat
deriving DecidableEq, Repr

/-- The handler's `for answer_pattern in question['answers']` loop:
first matching pattern wins with the question's `correct_message`,
exhaustion yields the question's `hint`. -/
def scanPatterns (answer correctMsg hint : String) : List AnswerPattern → ValidateResp
  | [] => ⟨false, hint, 200⟩
  | ap :: rest =>
      if reSearch ap.pattern (ap.flags.getD "") answer then ⟨true, correctMsg, 200⟩
      else scanPatterns answer correctMsg hint rest

/-- The `/validate` handler: strips the submitted answer, reloads the
course document, reports `Lab not found` when the document is falsy
(`not questions`) or lacks the lab, `Question not found` when no
question has the submitted id, and otherwise scans the question's
answer patterns in order. -/
def validate (st : ServerState) (req : ValidateReq) : ValidateResp :=
  let answer := pyStrip req.answer
  match load_questions st.questionsDir req.course_name with
  | none => ⟨false, "Lab not found", 404⟩
  | some doc =>
      if doc.isEmpty then ⟨false, "Lab not found", 404⟩
      else
        match lookupLab doc req.lab_id with
        | none => ⟨false, "Lab not found", 404⟩
        | some quiz =>
            match quiz.questions.find? (fun q => q.id == req.question_id) with
            | none => ⟨false, "Question not found", 404⟩
            | some question =>
                scanPatterns answer question.correct_message question.hint question.answers

/-- The `/validate` route as a state transformer: the handler performs no writes,
so it pairs the unchanged state with the response. -/
def validateH (st : ServerState) (req : ValidateReq) : ServerState × ValidateResp :=
  (st, validate st req)

/-! ## The `/complete` handler -/

inductive CompleteResp where
  | ok (message : String) (file : List Char)
  | err (message : String)
deriving DecidableEq, Repr

def CompleteResp.success : CompleteResp → Bool
  | .ok .. => true
  | .err _ => false

def CompleteResp.statusCode : CompleteResp → Nat
  | .ok .. => 200
  | .err _ => 500

/-- The `/complete` handler: writes (creates or overwrites) the marker
file for the pair; an exception during the write is caught and returned
as a `success=False` payload carrying the exception text. -/
def completeH (env : IOEnv) (st : ServerState) (course lab : String) :
    ServerState × CompleteResp :=
  let name := markerBase course lab
  match env name with
  | some e => (st, .err e)
  | none =>
      (⟨st.questionsDir, if name ∈ st.markers then st.markers else name :: st.markers⟩,
       .ok ("Quiz " ++ course ++ "/" ++ lab ++ " marked as complete") (markerPath course lab))

/-! ## The `/reset` handler -/

inductive ResetResp where
  | ok (message : String) (deleted : List (List Char)) (errors : Option (List String))
      (storageKey : String)
  | err (message : String)
deriving DecidableEq, Repr

def ResetResp.success : ResetResp → Bool
  | .ok .. => true
  | .err _ => false

def ResetResp.statusCode : ResetResp → Nat
  | .ok .. => 200
  | .err _ => 500

/-- The `/reset` handler.  With `reset_all`, every file matching
`quiz_complete_*.txt` is deleted, each failed deletion being collected
into `errors` while the overall call still succeeds.  Without it, the
pair's marker is deleted if it exists (an exception there propagates to
the outer handler and becomes a `success=False` payload); a missing
marker is not an error. -/
def resetH (env : IOEnv) (st : ServerState) (course lab : String) (resetAll : Bool) :
    ServerState × ResetResp :=
  if resetAll then
    let matching := st.markers.filter globMatch
    let deleted := matching.filter (fun n => (env n).isNone)
    let errors := matching.filterMap (fun n =>
      (env n).map (fun e => "Failed to delete /root/" ++ String.mk n ++ ": " ++ e))
    let newMarkers := st.markers.filter (fun n => !globMatch n || (env n).isSome)
    (⟨st.questionsDir, newMarkers⟩,
     .ok "Quiz reset completed" deleted (if errors.isEmpty then none else some errors)
       "quizProgress_*")
  else
    let name := markerBase course lab
    if name ∈ st.markers then
      match env name with
      | some e => (st, .err e)
      | none =>
          (⟨st.questionsDir, st.markers.filter (fun n => n != name)⟩,
           .ok "Quiz reset completed" [name] none ("quizProgress_" ++ course ++ "_" ++ lab))
    else
      (st, .ok "Quiz reset completed" [] none ("quizProgress_" ++ course ++ "_" ++ lab))

/-! ## The quiz-page route `/{course}/{lab}` -/

inductive QuizResp where
  | page (quiz : Lab) (course lab : String)
  | notFound (course lab : String) (available : List String)
deriving DecidableEq, Repr

def QuizResp.statusCode : QuizResp → Nat
  | .page .. => 200
  | .notFound .. => 404

/-- The quiz route: loads the course document; a falsy document
(`not questions`) or a missing lab renders the error page (with the
list of available courses) at status 404; otherwise the quiz page. -/
def quizH (st : ServerState) (course lab : String) : QuizResp :=
  match load_questions st.questionsDir course with
  | none => .notFound course lab (get_available_courses st.questionsDir)
  | some doc =>
      if doc.isEmpty then .notFound course lab (get_available_courses st.questionsDir)
      else
        match lookupLab doc lab with
        | none => .notFound course lab (get_available_courses st.questionsDir)
        | some quizData => .page quizData course lab

/-! ## Concrete fixtures (a small course for evaluating the handlers) -/

def apW : AnswerPattern := ⟨"yes", none⟩

def qW : Question := ⟨3, "Q3", "text", "ph", false, none, [apW], "Well done", "Try again"⟩

def qE : Question := ⟨7, "Q7", "text", "ph", false, none, [], "ok", "hint7"⟩

def labW : Lab := ⟨"Lab One", [qW, qE]⟩

def docW : CourseDoc := [("lab1", labW)]

def dirW : QuestionsDir := [("networking", FileData.parsed docW)]

def stW : ServerState := ⟨dirW, []⟩

/-- An I/O environment in which every marker operation succeeds. -/
def envOk : IOEnv := fun _ => none

/-- An I/O environment in which every marker operation raises. -/
def envBad : IOEnv := fun _ => some "disk full"

/-- The flags string with only the recognized modifier letters kept. -/
def keepRecognized (fl : String) : String :=
  String.mk (fl.toList.filter (fun c => c == 'i' || c == 'm' || c == 's'))

/-! ## Helper lemmas -/

theorem scanPatterns_pos (answer cm hint : String) (aps : List AnswerPattern)
    (hx : ∃ ap ∈ aps, reSearch ap.pattern (ap.flags.getD "") answer = true) :
    scanPatterns answer cm hint aps = ⟨true, cm, 200⟩ := by
  induction aps with
  | nil => simp at hx
  | cons a rest ih =>
      rw [scanPatterns]
      by_cases hm : reSearch a.pattern (a.flags.getD "") answer = true
      · rw [if_pos hm]
      · rw [if_neg hm]
        apply ih
        rcases hx with ⟨ap, hmem, hs⟩
        rcases List.mem_cons.mp hmem with h | h
        · exact absurd (h ▸ hs) hm
        · exact ⟨ap, h, hs⟩

theorem scanPatterns_neg (answer cm hint : String) (aps : List AnswerPattern)
    (hx : ∀ ap ∈ aps, reSearch ap.pattern (ap.flags.getD "") answer = false) :
    scanPatterns answer cm hint aps = ⟨false, hint, 200⟩ := by
  induction aps with
  | nil => rfl
  | cons a rest ih =>
      rw [scanPatterns]
      rw [if_neg (by simp [hx a (List.mem_cons_self a rest)])]
      exact ih (fun ap h => hx ap (List.mem_cons_of_mem a h))

theorem matchPre_of_accept (ci : Bool) (endOk : List Char → Bool)
    (hend : ∀ l, endOk l = true) :
    ∀ (t cs : List Char) (r : Regex), t <+: cs → accepts ci r t = true →
      matchPre ci endOk r cs = true := by
  intro t
  induction t with
  | nil =>
      intro cs r _ hacc
      have hn : nullable r = true := hacc
      cases cs with
      | nil => simp [matchPre, hend, hn]
      | cons c rest => simp [matchPre, hend, hn]
  | cons a t' ih =>
      intro cs r hpre hacc
      rcases hpre with ⟨s, hs⟩
      subst hs
      rw [List.cons_append, matchPre]
      refine Bool.or_eq_true_iff.mpr (Or.inr ?_)
      exact ih (t' ++ s) (deriv ci r a) ⟨s, rfl⟩ hacc

theorem searchAux_of_drop (ci : Bool) (startOk : Option Char → Bool)
    (endOk : List Char → Bool) (r : Regex) (hstart : ∀ x, startOk x = true) :
    ∀ (cs : List Char) (prev : Option Char) (i : Nat),
      matchPre ci endOk r (cs.drop i) = true →
      searchAux ci startOk endOk r prev cs = true := by
  intro cs
  induction cs with
  | nil =>
      intro prev i h
      rw [List.drop_nil] at h
      rw [searchAux]
      simp [hstart, h]
  | cons c rest ih =>
      intro prev i h
      rw [searchAux]
      cases i with
      | zero =>
          rw [List.drop_zero] at h
          simp [hstart, h]
      | succ i' =>
          rw [List.drop_succ_cons] at h
          refine Bool.or_eq_true_iff.mpr (Or.inr ?_)
          exact ih (some c) i' h

theorem globMatch_markerBase (c l : String) : globMatch (markerBase c l) = true := by
  unfold globMatch markerBase
  rw [Bool.and_eq_true]
  constructor
  · rw [ List.isPrefixOf_iff_prefix]
    simp only [List.append_assoc]
    exact List.prefix_append _ _
  · have hdrop :
        (("quiz_complete_".toList ++ c.toList ++ ['_'] ++ l.toList ++ ".txt".toList).drop
          "quiz_complete_".toList.length) =
        c.toList ++ ['_'] ++ l.toList ++ ".txt".toList := by
      simp only [List.append_assoc]
      rw [List.drop_left]
    rw [hdrop, List.isSuffixOf_iff_suffix]
    simp only [List.append_assoc]
    exact (List.suffix_append _ _).trans (List.suffix_append _ _) |>.trans
      (List.suffix_append _ _)

theorem available_ne_nil (dir : QuestionsDir) (h : dir ≠ []) :
    get_available_courses dir ≠ [] := by
  unfold get_available_courses
  intro hc
  have hlen := (List.mergeSort_perm (dir.map Prod.fst) (fun a b => a ≤ b)).length_eq
  rw [hc] at hlen
  simp at hlen
  exact h (List.length_eq_zero.mp hlen.symm)

theorem contains_filter_keep (p : Char → Bool) (c : Char) (hp : p c = true) :
    ∀ l : List Char, (l.filter p).contains c = l.contains c := by
  intro l
  induction l with
  | nil => rfl
  | cons x xs ih =>
      by_cases hx : p x = true
      · rw [List.filter_cons_of_pos hx, List.contains_cons, List.contains_cons, ih]
      · rw [List.filter_cons_of_neg hx, ih, List.contains_cons]
        have hcx : (c == x) = false := by
          apply beq_eq_false_iff_ne.mpr
          intro he
          exact hx (he ▸ hp)
        rw [hcx, Bool.false_or]

/-! ## Claims -/

/-- Claim C3: for every validate call, regardless of whether the
verdict is correct, incorrect, or a not-found failure, no persisted
server-side state changes: the completion-marker store and the course
documents are identical before and after the call. -/
theorem claim_C3_validate_no_state_change (st : ServerState) (req : ValidateReq) :
    (validateH st req).1.markers = st.markers ∧
    (validateH st req).1.questionsDir = st.questionsDir :=
  ⟨rfl, rfl⟩

/-- Claim C4: the loader's result is exactly the parse of the current
on-disk content of the backing file (so each call sees the current
state, with no cache), and an absent or malformed backing file yields
the absence signal `none`, never a partial result. -/
theorem claim_C4_loader_rereads_and_fails_closed
    (dir dir' : QuestionsDir) (course : String) :
    (getFile dir course = getFile dir' course →
      load_questions dir course = load_questions dir' course) ∧
    (getFile dir course = none → load_questions dir course = none) ∧
    (getFile dir course = some .malformed → load_questions dir course = none) ∧
    (∀ doc, getFile dir course = some (.parsed doc) →
      load_questions dir course = some doc) := by
  refine ⟨?_, ?_, ?_, ?_⟩
  · intro h
    unfold load_questions
    rw [h]
  · intro h
    unfold load_questions
    rw [h]
  · intro h
    unfold load_questions
    rw [h]
  · intro doc h
    unfold load_questions
    rw [h]

/-- Witness for C4 at a concrete directory: an edit that replaces a
malformed file by a parsed one is visible, and both failure cases
return `none`. -/
theorem claim_C4_witness :
    load_questions [("networking", FileData.malformed)] "networking" = none ∧
    load_questions [] "networking" = none ∧
    load_questions dirW "networking" = some docW := by
  refine ⟨?_, ?_, ?_⟩
  · exact (claim_C4_loader_rereads_and_fails_closed
      [("networking", FileData.malformed)] [] "networking").2.2.1 rfl
  · exact (claim_C4_loader_rereads_and_fails_closed
      [] dirW "networking").2.1 rfl
  · exact (claim_C4_loader_rereads_and_fails_closed
      dirW [] "networking").2.2.2 docW rfl

/-- Claim C6: resetting a pair whose completion marker does not exist
(without the "reset all" flag) returns `success=true` with an empty
deleted-files list and leaves the state unchanged — it is not an
error. -/
theorem claim_C6_reset_missing_marker (env : IOEnv) (st : ServerState)
    (c l : String) (h : markerBase c l ∉ st.markers) :
    (resetH env st c l false).2 =
      .ok "Quiz reset completed" [] none ("quizProgress_" ++ c ++ "_" ++ l) ∧
    ResetResp.success (resetH env st c l false).2 = true ∧
    (resetH env st c l false).1 = st := by
  unfold resetH
  simp only [Bool.false_eq_true, if_false, if_neg h]
  exact ⟨trivial, rfl, trivial⟩

/-- Witness for C6 at a concrete state with no markers. -/
theorem claim_C6_witness :
    (resetH envOk stW "networking" "lab1" false).2 =
      .ok "Quiz reset completed" [] none "quizProgress_networking_lab1" :=
  (claim_C6_reset_missing_marker envOk stW "networking" "lab1"
    (by simp [stW])).1

/-- Claim C8: the complete handler is idempotent — a second complete
call for the same pair leaves the marker store exactly as after one
call — and a failing marker write is surfaced as a `success=false`
payload carrying the underlying error text (status 500, no unhandled
fault), with no other state changed. -/
theorem claim_C8_complete_idempotent_and_failure
    (env : IOEnv) (st : ServerState) (c l : String) :
    ((completeH env (completeH env st c l).1 c l).1 = (completeH env st c l).1) ∧
    (∀ e, env (markerBase c l) = some e →
      (completeH env st c l).1 = st ∧
      (completeH env st c l).2 = .err e ∧
      CompleteResp.success (completeH env st c l).2 = false ∧
      CompleteResp.statusCode (completeH env st c l).2 = 500) := by
  constructor
  · cases henv : env (markerBase c l) with
    | some e => simp [completeH, henv]
    | none =>
        by_cases hm : markerBase c l ∈ st.markers
        · simp [completeH, henv, hm]
        · simp [completeH, henv, hm]
  · intro e he
    simp [completeH, he, CompleteResp.success, CompleteResp.statusCode]

/-- Witness for C8: a failing write at a concrete state is reported as
a `success=false` payload with the error text, and two successful
completes equal one. -/
theorem claim_C8_witness :
    (completeH envBad stW "networking" "lab1").2 = .err "disk full" ∧
    (completeH envOk (completeH envOk stW "networking" "lab1").1 "networking" "lab1").1 =
      (completeH envOk stW "networking" "lab1").1 := by
  constructor
  · exact ((claim_C8_complete_idempotent_and_failure envBad stW "networking" "lab1").2
      "disk full" rfl).2.1
  · exact (claim_C8_complete_idempotent_and_failure envOk stW "networking" "lab1").1

/-- Claim C10: modifier letters other than `i`, `m`, `s` in a pattern's
flags string are silently ignored: the match verdict for any pattern,
answer and flags string equals the verdict with only the recognized
letters kept, and the (total) matcher raises no error on unrecognized
letters. -/
theorem claim_C10_unrecognized_flags_ignored (p fl a : String) :
    reSearch p fl a = reSearch p (keepRecognized fl) a := by
  have hf : parseFlags (keepRecognized fl) = parseFlags fl := by
    unfold parseFlags keepRecognized pyIn
    have hmk : (String.mk (fl.toList.filter
        (fun c => c == 'i' || c == 'm' || c == 's'))).toList =
        fl.toList.filter (fun c => c == 'i' || c == 'm' || c == 's') := rfl
    rw [hmk]
    rw [contains_filter_keep _ 'i' (by decide) fl.toList,
        contains_filter_keep _ 'm' (by decide) fl.toList,
        contains_filter_keep _ 's' (by decide) fl.toList]
  unfold reSearch
  rw [hf]

/-- Claim C1: validate reloads the course document and fails with
`Lab not found` when the lab is absent, with `Question not found` when
no question in the lab has the given id, and otherwise tests the
trimmed answer against the question's patterns (with their declared
modifiers) in order: it answers `correct=true` with the question's
success message when some pattern matches, `correct=false` with the
question's hint when none does. -/
theorem claim_C1_validate_algorithm (st : ServerState) (req : ValidateReq) :
    ((∀ doc, load_questions st.questionsDir req.course_name = some doc →
        lookupLab doc req.lab_id = none) →
      validate st req = ⟨false, "Lab not found", 404⟩) ∧
    (∀ doc quizL,
      load_questions st.questionsDir req.course_name = some doc →
      lookupLab doc req.lab_id = some quizL →
      ((quizL.questions.find? (fun q => q.id == req.question_id) = none →
          validate st req = ⟨false, "Question not found", 404⟩) ∧
       (∀ q, quizL.questions.find? (fun q => q.id == req.question_id) = some q →
          ((∃ ap ∈ q.answers,
              reSearch ap.pattern (ap.flags.getD "") (pyStrip req.answer) = true) →
            validate st req = ⟨true, q.correct_message, 200⟩) ∧
          ((∀ ap ∈ q.answers,
              reSearch ap.pattern (ap.flags.getD "") (pyStrip req.answer) = false) →
            validate st req = ⟨false, q.hint, 200⟩)))) := by
  constructor
  · intro hl
    cases hload : load_questions st.questionsDir req.course_name with
    | none => simp [validate, hload]
    | some doc =>
        have hlk := hl doc hload
        cases doc with
        | nil => simp [validate, hload]
        | cons x xs => simp [validate, hload, hlk]
  · intro doc quizL hload hlook
    have hne : doc.isEmpty = false := by
      cases doc with
      | nil => simp [lookupLab] at hlook
      | cons x xs => rfl
    constructor
    · intro hfind
      simp [validate, hload, hne, hlook, hfind]
    · intro q hfind
      constructor
      · intro hex
        have hs := scanPatterns_pos (pyStrip req.answer) q.correct_message q.hint
          q.answers hex
        simp [validate, hload, hne, hlook, hfind, hs]
      · intro hall
        have hs := scanPatterns_neg (pyStrip req.answer) q.correct_message q.hint
          q.answers hall
        simp [validate, hload, hne, hlook, hfind, hs]

/-- Witness for C1 at a concrete course: a matching answer is judged
correct with the success message, a non-matching one gets the hint. -/
theorem claim_C1_witness :
    validate stW ⟨"networking", "lab1", 3, "  yes  "⟩ = ⟨true, "Well done", 200⟩ ∧
    validate stW ⟨"networking", "lab1", 3, "nope"⟩ = ⟨false, "Try again", 200⟩ := by
  constructor
  · exact ((((claim_C1_validate_algorithm stW
      ⟨"networking", "lab1", 3, "  yes  "⟩).2 docW labW rfl rfl).2 qW rfl).1
      ⟨apW, by decide, by decide⟩)
  · exact ((((claim_C1_validate_algorithm stW
      ⟨"networking", "lab1", 3, "nope"⟩).2 docW labW rfl rfl).2 qW rfl).2
      (by decide))

/-- The regex the engine parses from the pattern string `yes`. -/
def rYes : Regex := .cat (.chr 'y') (.cat (.chr 'e') (.cat (.chr 's') .eps))

/-- Claim C2: matching is substring search, not full-string matching:
for any pattern without anchors, an input containing a match of the
pattern anywhere is judged a match; in particular pattern `yes`
matches the input `yes please` and validate judges it correct. -/
theorem claim_C2_substring_search :
    (∀ (p fl a : String) (r : Regex),
      parsePattern p (parseFlags fl).dotall = some (false, r, false) →
      (∃ i t, t <+: (a.toList.drop i) ∧
          accepts (parseFlags fl).ignorecase r t = true) →
      reSearch p fl a = true) ∧
    validate stW ⟨"networking", "lab1", 3, "yes please"⟩ = ⟨true, "Well done", 200⟩ := by
  constructor
  · intro p fl a r hp hex
    have hred : reSearch p fl a =
        searchAux (parseFlags fl).ignorecase
          (startOkFor false (parseFlags fl).multiline)
          (endOkFor false (parseFlags fl).multiline) r none a.toList := by
      simp only [reSearch]
      rw [hp]
    rw [hred]
    rcases hex with ⟨i, t, hpre, hacc⟩
    exact searchAux_of_drop _ _ _ _ (fun x => rfl) a.toList none i
      (matchPre_of_accept _ _ (fun lx => rfl) t _ r hpre hacc)
  · decide

/-- Witness for C2: the pattern `yes`, parsed to `rYes`, accepts the
leading substring `yes` of `yes please`, so the search succeeds. -/
theorem claim_C2_witness : reSearch "yes" "" "yes please" = true :=
  claim_C2_substring_search.1 "yes" "" "yes please" rYes (by decide)
    ⟨0, ['y', 'e', 's'], by decide, by decide⟩

/-- Claim C5: completing a pair and then resetting it leaves no
completion marker for that pair; and a reset with the "reset all" flag
removes the markers of every pair, whatever pair the call targeted. -/
theorem claim_C5_marker_roundtrip (env : IOEnv) (st : ServerState)
    (c l : String) (henv : ∀ n, env n = none) :
    (markerBase c l ∉
      (resetH env (completeH env st c l).1 c l false).1.markers) ∧
    (∀ c2 l2, markerBase c2 l2 ∉ (resetH env st c l true).1.markers) := by
  constructor
  · have h1 : (completeH env st c l).1.markers =
        (if markerBase c l ∈ st.markers then st.markers
         else markerBase c l :: st.markers) := by
      simp [completeH, henv (markerBase c l)]
    have hmem : markerBase c l ∈ (completeH env st c l).1.markers := by
      rw [h1]
      by_cases hm : markerBase c l ∈ st.markers
      · rw [if_pos hm]; exact hm
      · rw [if_neg hm]; exact List.mem_cons_self _ _
    have h2 : (resetH env (completeH env st c l).1 c l false).1.markers =
        (completeH env st c l).1.markers.filter (fun n => n != markerBase c l) := by
      simp [resetH, hmem, henv (markerBase c l)]
    rw [h2]
    intro hx
    rcases List.mem_filter.mp hx with ⟨_, hb⟩
    simp at hb
  · intro c2 l2
    have h3 : (resetH env st c l true).1.markers =
        st.markers.filter (fun n => !globMatch n || (env n).isSome) := by
      simp [resetH]
    rw [h3]
    intro hx
    rcases List.mem_filter.mp hx with ⟨_, hb⟩
    rw [henv (markerBase c2 l2)] at hb
    simp [globMatch_markerBase c2 l2] at hb

/-- Witness for C5: a concrete round trip and a concrete "reset all"
over a store holding a marker for a different pair. -/
theorem claim_C5_witness :
    (markerBase "networking" "lab1" ∉
      (resetH envOk (completeH envOk stW "networking" "lab1").1
        "networking" "lab1" false).1.markers) ∧
    (markerBase "other" "lab9" ∉
      (resetH envOk ⟨dirW, [markerBase "other" "lab9"]⟩
        "networking" "lab1" true).1.markers) := by
  constructor
  · exact (claim_C5_marker_roundtrip envOk stW "networking" "lab1"
      (fun _ => rfl)).1
  · exact (claim_C5_marker_roundtrip envOk ⟨dirW, [markerBase "other" "lab9"]⟩
      "networking" "lab1" (fun _ => rfl)).2 "other" "lab9"

/-- Claim C7: on the quiz page route, an unknown course and an unknown
lab within a known course both render the same "not found" page shape
at status 404, listing the available courses, a list that is non-empty
whenever any course exists. -/
theorem claim_C7_unknown_course_or_lab_404 (st : ServerState) (c l : String) :
    (getFile st.questionsDir c = none →
      quizH st c l = .notFound c l (get_available_courses st.questionsDir) ∧
      (quizH st c l).statusCode = 404) ∧
    (∀ doc, load_questions st.questionsDir c = some doc → lookupLab doc l = none →
      quizH st c l = .notFound c l (get_available_courses st.questionsDir) ∧
      (quizH st c l).statusCode = 404) ∧
    (st.questionsDir ≠ [] → get_available_courses st.questionsDir ≠ []) := by
  refine ⟨?_, ?_, ?_⟩
  · intro h
    have hl : load_questions st.questionsDir c = none := by
      unfold load_questions
      rw [h]
    have hq : quizH st c l = .notFound c l (get_available_courses st.questionsDir) := by
      simp [quizH, hl]
    exact ⟨hq, by rw [hq]; rfl⟩
  · intro doc hload hlook
    by_cases he : doc.isEmpty = true
    · have hq : quizH st c l = .notFound c l (get_available_courses st.questionsDir) := by
        simp [quizH, hload, he]
      exact ⟨hq, by rw [hq]; rfl⟩
    · have hq : quizH st c l = .notFound c l (get_available_courses st.questionsDir) := by
        simp [quizH, hload, he, hlook]
      exact ⟨hq, by rw [hq]; rfl⟩
  · exact available_ne_nil st.questionsDir

/-- Witness for C7: an unknown course and an unknown lab of the known
course both yield the same "not found" page over the one-course
directory, whose course list is non-empty. -/
theorem claim_C7_witness :
    quizH stW "zzz" "lab1" = .notFound "zzz" "lab1" (get_available_courses dirW) ∧
    quizH stW "networking" "nope" =
      .notFound "networking" "nope" (get_available_courses dirW) ∧
    get_available_courses dirW ≠ [] := by
  refine ⟨?_, ?_, ?_⟩
  · exact ((claim_C7_unknown_course_or_lab_404 stW "zzz" "lab1").1 (by decide)).1
  · exact ((claim_C7_unknown_course_or_lab_404 stW "networking" "nope").2.1
      docW rfl (by decide)).1
  · exact (claim_C7_unknown_course_or_lab_404 stW "networking" "nope").2.2
      (by decide)

/-- Claim C9: a question whose answer-pattern list is empty can never
be answered correctly: validate returns `correct=false` with that
question's hint for every submitted answer text. -/
theorem claim_C9_empty_patterns_never_correct (st : ServerState)
    (course lab : String) (qid : Int) (doc : CourseDoc) (quizL : Lab) (q : Question)
    (hload : load_questions st.questionsDir course = some doc)
    (hlook : lookupLab doc lab = some quizL)
    (hfind : quizL.questions.find? (fun qq => qq.id == qid) = some q)
    (hans : q.answers = []) :
    ∀ answer, validate st ⟨course, lab, qid, answer⟩ = ⟨false, q.hint, 200⟩ := by
  intro answer
  have hne : doc.isEmpty = false := by
    cases doc with
    | nil => simp [lookupLab] at hlook
    | cons x xs => rfl
  have hs : scanPatterns (pyStrip answer) q.correct_message q.hint q.answers =
      ⟨false, q.hint, 200⟩ := by
    rw [hans]
    rfl
  simp [validate, hload, hne, hlook, hfind, hs]

/-- Witness for C9: the fixture question 7 has no patterns, so any
answer is judged incorrect with its hint. -/
theorem claim_C9_witness :
    validate stW ⟨"networking", "lab1", 7, "whatever"⟩ = ⟨false, "hint7", 200⟩ :=
  claim_C9_empty_patterns_never_correct stW "networking" "lab1" 7 docW labW qE
    rfl rfl (by decide) rfl "whatever"

end QuizServer
